import Mathlib

/-!
Verification of the offer-allocation and rate-anchoring strategy of
`src/lend.py` (an automated funding-offer placement tool).

The embedding translates the Python module into Lean over exact rationals:
module-level numeric constants become `ℚ` constants; the network-facing
adapters (order book, funding stats, trade history, offer submission) become
explicit parameters describing the outcome of each call, so that every
market-data outcome and every sequence of submission outcomes can be
quantified over.  The chunking loop of `place_limit_offers_around_last_rate`
is written with an explicit fuel argument (the Python `while` loop decrements
`remaining` by at least `MIN_OFFER` per iteration, so
`⌈free_bal / MIN_OFFER⌉` steps always suffice; this is proved below rather
than assumed).
-/

attribute [local semireducible] Rat.add Rat.mul Rat.sub Rat.inv

set_option exponentiation.threshold 400

set_option maxRecDepth 4000

namespace Lend

/-- Constant `MIN_OFFER = 150.0` from src/lend.py line 23. -/
def MIN_OFFER : ℚ := 150

/-- Constant `CHUNK_SIZE = 1000.0` from src/lend.py line 24. -/
def CHUNK_SIZE : ℚ := 1000

/-- Constant `DURATION_D = 2` from src/lend.py line 25. -/
def DURATION_D : ℕ := 2

/-- Constant `SPREAD_OFFSETS` from src/lend.py line 29:
`[-0.0005, -0.0003, -0.0001, 0.0, 0.0001, 0.0003, 0.0005]`. -/
def SPREAD_OFFSETS : List ℚ :=
  [-5/10000, -3/10000, -1/10000, 0, 1/10000, 3/10000, 5/10000]

/-- The epsilon floor `0.000001` applied to every submitted rate
(src/lend.py lines 230 and 279). -/
def RATE_FLOOR : ℚ := 1/1000000

/-- Constant `IDLE_WARN_THRESHOLD = 200.0` from src/lend.py line 32. -/
def IDLE_WARN_THRESHOLD : ℚ := 200

/-- The hardcoded conservative anchor floor `0.0002` (2 bps/day) used by
`fetch_frr_daily_rate` when no market data is available (src/lend.py line 188). -/
def FRR_FLOOR : ℚ := 2/10000

/-- Function `daily_to_apy` from src/lend.py line 69:
`(1.0 + d) ** 365 - 1.0`. -/
def daily_to_apy (d : ℚ) : ℚ := (1 + d) ^ 365 - 1

/-! ### Market data (public) -/

/-- One funding order-book row `[RATE, PERIOD, COUNT, AMOUNT]`; only the rate
(index 0) and the signed amount (index 3) are read by the code, so only those
are kept.  Rows of the wire response that fail the
`isinstance(row, list) and len(row) >= 4` shape check are skipped by the code
and are therefore simply absent from the modelled list. -/
structure BookRow where
  rate : ℚ
  amount : ℚ
deriving DecidableEq

/-- Function `funding_best_bid_ask` from src/lend.py lines 128-146.  A `none`
book models the `except` path (the HTTP call failed), which returns
`(None, None)`.  Positive-amount rows are bids, negative-amount rows asks;
best bid is the maximum bid rate, best ask the minimum ask rate, `none` when
that side is empty. -/
def funding_best_bid_ask (book : Option (List BookRow)) : Option ℚ × Option ℚ :=
  match book with
  | none => (none, none)
  | some rows =>
    let bids := (rows.filter fun r => 0 < r.amount).map BookRow.rate
    let asks := (rows.filter fun r => r.amount < 0).map BookRow.rate
    (bids.max?, asks.min?)

/-- Outcome of the `/v2/funding/stats/.../last` call made by
`fetch_frr_daily_rate` (src/lend.py lines 168-182): the call may raise
(`failed`), return a JSON list (values already passed through `safe_float`,
which maps unparsable entries to `0.0`), or return a scalar. -/
inductive StatsResp where
  | failed : StatsResp
  | listResp : List ℚ → StatsResp
  | scalar : ℚ → StatsResp
deriving DecidableEq

/-- The candidate value `fetch_frr_daily_rate` extracts from the stats
response before its `> 0` check (src/lend.py lines 170-182): element 1 of a
list of length ≥ 2, element 0 of a singleton list, the scalar itself, and no
candidate at all for an empty list or a failed call. -/
def statsCandidate : StatsResp → Option ℚ
  | .failed => none
  | .listResp vals =>
    if 2 ≤ vals.length then some (vals.getD 1 0)
    else if vals.length = 1 then some (vals.getD 0 0)
    else none
  | .scalar v => some v

/-- Python truthiness of an optional float: `None` and `0.0` are falsy. -/
def pyTruthy (x : Option ℚ) : Bool :=
  match x with
  | none => false
  | some v => decide (v ≠ 0)

/-- Python `x or d` for an optional float `x`: yields `d` when `x` is `None`
or `0.0`, else the value of `x`. -/
def pyOr (x : Option ℚ) (d : ℚ) : ℚ :=
  match x with
  | none => d
  | some v => if v = 0 then d else v

/-- The book fallback of `fetch_frr_daily_rate` (src/lend.py lines 185-188):
`if best_bid and best_ask: return (best_bid + best_ask) / 2.0` then
`return max(best_bid or 0.0002, 0.0002)`. -/
def frrFallback (book : Option (List BookRow)) : ℚ :=
  let bb := (funding_best_bid_ask book).1
  let ba := (funding_best_bid_ask book).2
  if pyTruthy bb && pyTruthy ba then (bb.getD 0 + ba.getD 0) / 2
  else max (pyOr bb FRR_FLOOR) FRR_FLOOR

/-- Function `fetch_frr_daily_rate` from src/lend.py lines 165-188 as a
function of the two market-data outcomes it consumes.  Each branch of the
original returns the parsed stats value only when it is `> 0`; every other
path falls through to the order-book fallback. -/
def fetch_frr_daily_rate (stats : StatsResp) (book : Option (List BookRow)) : ℚ :=
  match statsCandidate stats with
  | some v => if 0 < v then v else frrFallback book
  | none => frrFallback book

/-- A funding trade row `[ID, MTS, AMOUNT, RATE, PERIOD]`; only the rate
(index 3) is read.  Rows failing the shape check, like whole responses that
raise, are modelled as an absent response. -/
structure TradeRow where
  rate : ℚ
deriving DecidableEq

/-- Function `fetch_last_matched_daily_rate` from src/lend.py lines 148-163:
returns the first trade's rate when it is `> 0`, else `None` (also on an
empty history or a failed call, both modelled by `none` / `some []`). -/
def fetch_last_matched_daily_rate (trades : Option (List TradeRow)) : Option ℚ :=
  match trades with
  | none => none
  | some [] => none
  | some (row :: _) => if 0 < row.rate then some row.rate else none

/-- The anchor resolution step of `main` (src/lend.py lines 259-264):
`last_rate = fetch_last_matched_daily_rate()` and, when that is falsy
(it is `None` or a positive rate, never `0.0`), the fallback
`last_rate = fetch_frr_daily_rate()`. -/
def resolve_anchor (trades : Option (List TradeRow)) (stats : StatsResp)
    (book : Option (List BookRow)) : ℚ :=
  match fetch_last_matched_daily_rate trades with
  | some r => r
  | none => fetch_frr_daily_rate stats book

/-! ### Submissions (private) -/

/-- The two symbol aliases: `SYMBOL_PREFERRED = "fUSDT"`,
`SYMBOL_FALLBACK = "fUST"` (src/lend.py lines 20-21). -/
inductive FundingSymbol where
  | fUSDT : FundingSymbol
  | fUST : FundingSymbol
deriving DecidableEq

/-- Constant `SYMBOL_PREFERRED` (src/lend.py line 20). -/
def SYMBOL_PREFERRED : FundingSymbol := .fUSDT

/-- Constant `SYMBOL_FALLBACK` (src/lend.py line 21). -/
def SYMBOL_FALLBACK : FundingSymbol := .fUST

/-- Function `submit_offer` from src/lend.py lines 204-210, abstracted over
the outcome of `submit_offer_with_symbol` for each symbol (`attempt`): try
the preferred symbol; on any exception, retry exactly once with the fallback
symbol and return that second outcome as-is (a second failure propagates).
The result is paired with the ordered list of symbols actually attempted. -/
def submit_offer {ε ρ : Type} (attempt : FundingSymbol → Except ε ρ) :
    Except ε ρ × List FundingSymbol :=
  match attempt SYMBOL_PREFERRED with
  | .ok r => (.ok r, [SYMBOL_PREFERRED])
  | .error _ => (attempt SYMBOL_FALLBACK, [SYMBOL_PREFERRED, SYMBOL_FALLBACK])

/-! ### Strategy -/

/-- One submitted LIMIT offer of the primary chunking phase: the amount, the
clamped rate, and the ladder offset that produced the rate. -/
structure Intent where
  amount : ℚ
  rate : ℚ
  offset : ℚ
deriving DecidableEq

/-- The rate computation of src/lend.py line 230:
`max(last_rate * (1.0 + offset), 0.000001)`. -/
def target_rate (anchor offset : ℚ) : ℚ := max (anchor * (1 + offset)) RATE_FLOOR

/-- The `while` loop of `place_limit_offers_around_last_rate`
(src/lend.py lines 223-242), with the constants `MIN_OFFER`, `CHUNK_SIZE`
and `SPREAD_OFFSETS` as parameters and an explicit fuel bound.  `ok idx`
is the outcome of the `submit_offer` call for loop counter `idx` (which
counts successful submissions, since a failure breaks out of the loop):
on success the intent is recorded, `remaining` decreases by the chunk and
`idx` advances; on failure the loop breaks with `remaining` unchanged.
The ladder lookup `offs.getD (idx % offs.length) 0` matches
`SPREAD_OFFSETS[idx % len(SPREAD_OFFSETS)]` whenever `offs` is non-empty
(the data-model invariant; Python raises `ZeroDivisionError` on an empty
ladder, a state no theorem below quantifies over). -/
def chunkLoop (minO chunk : ℚ) (offs : List ℚ) (anchor : ℚ) (ok : ℕ → Bool) :
    ℕ → ℚ → ℕ → List Intent × ℚ
  | 0, remaining, _ => ([], remaining)
  | fuel + 1, remaining, idx =>
    if minO ≤ remaining then
      let amt := min chunk remaining
      if amt < minO then ([], remaining)
      else
        let off := offs.getD (idx % offs.length) 0
        if ok idx then
          let rest := chunkLoop minO chunk offs anchor ok fuel (remaining - amt) (idx + 1)
          (⟨amt, target_rate anchor off, off⟩ :: rest.1, rest.2)
        else ([], remaining)
    else ([], remaining)

/-- Function `place_limit_offers_around_last_rate` from src/lend.py
lines 217-242: the loop at the module constants, started at `idx = 0` with
`remaining = free_bal`, given fuel `⌈free_bal / MIN_OFFER⌉` (each iteration
removes at least `MIN_OFFER`, so this many steps always reach the loop's own
exit condition; proved below). -/
def place_limit_offers_around_last_rate (ok : ℕ → Bool) (free_bal anchor : ℚ) :
    List Intent × ℚ :=
  chunkLoop MIN_OFFER CHUNK_SIZE SPREAD_OFFSETS anchor ok
    (⌈free_bal / MIN_OFFER⌉.toNat) free_bal 0

/-- The sweep rate of src/lend.py line 279: `max(last_rate, 0.000001)`. -/
def sweep_rate (anchor : ℚ) : ℚ := max anchor RATE_FLOOR

/-- The final sweep offer, when one is submitted. -/
structure SweepIntent where
  amount : ℚ
  rate : ℚ
deriving DecidableEq

/-- The final sweep of `main` (src/lend.py lines 275-283): when the leftover
is at least `MIN_OFFER`, submit one offer for the whole leftover at the
clamped anchor rate; on success `remaining` becomes `0.0`, on failure it is
kept.  Below `MIN_OFFER` nothing is submitted. -/
def final_sweep (okSweep : Bool) (anchor remaining : ℚ) : Option SweepIntent × ℚ :=
  if MIN_OFFER ≤ remaining then
    (some ⟨remaining, sweep_rate anchor⟩, if okSweep then 0 else remaining)
  else (none, remaining)

/-- The observable allocation outcome of one run: the primary-phase intents,
the sweep offer (if submitted), and the balance left idle at the end. -/
structure RunResult where
  intents : List Intent
  sweep : Option SweepIntent
  idle : ℚ
deriving DecidableEq

/-- The allocation part of `main` (src/lend.py lines 254-283) with the
per-order chunk size as a parameter: the early `free_bal < MIN_OFFER` return
(line 254), the primary chunking phase (line 272), then the final sweep
(lines 275-283).  The APY-guard block at lines 266-269 only prints a warning
and is therefore absent from the allocation semantics. -/
def mainRunWithChunk (chunk : ℚ) (ok : ℕ → Bool) (okSweep : Bool)
    (free_bal anchor : ℚ) : RunResult :=
  if free_bal < MIN_OFFER then ⟨[], none, free_bal⟩
  else
    let pr := chunkLoop MIN_OFFER chunk SPREAD_OFFSETS anchor ok
      (⌈free_bal / MIN_OFFER⌉.toNat) free_bal 0
    let sw := final_sweep okSweep anchor pr.2
    ⟨pr.1, sw.1, sw.2⟩

/-- The allocation part of `main` at the configured chunk size
`CHUNK_SIZE = 1000`. -/
def mainRun (ok : ℕ → Bool) (okSweep : Bool) (free_bal anchor : ℚ) : RunResult :=
  mainRunWithChunk CHUNK_SIZE ok okSweep free_bal anchor

/-- The ladder of offsets the chunking loop reads (src/lend.py line 229) as a
function of the configured guard threshold and the resolved anchor: the guard
block of `main` (lines 266-269, comment at line 30 calls it "informational
only") computes `daily_to_apy(last_rate) * 100` and prints a warning when it
is below the guard, but never modifies `SPREAD_OFFSETS` nor passes a reduced
ladder to `place_limit_offers_around_last_rate`, so the ladder used is the
full global list for every guard value and every anchor. -/
def ladder_used (guard anchor : ℚ) : List ℚ := SPREAD_OFFSETS

/-! ### Helper lemmas about the chunking loop -/

/-- The remaining balance returned by the loop is the starting balance minus
the sum of the amounts of the recorded (i.e. successfully submitted) chunks:
a failed submission breaks out without touching `remaining`. -/
theorem chunkLoop_spend (minO chunk : ℚ) (offs : List ℚ) (anchor : ℚ) (ok : ℕ → Bool) :
    ∀ (fuel : ℕ) (rem : ℚ) (idx : ℕ),
      (chunkLoop minO chunk offs anchor ok fuel rem idx).2 =
        rem - ((chunkLoop minO chunk offs anchor ok fuel rem idx).1.map Intent.amount).sum
  | 0, rem, idx => by simp [chunkLoop]
  | fuel + 1, rem, idx => by
    simp only [chunkLoop]
    split
    · split
      · simp
      · split
        · have ih := chunkLoop_spend minO chunk offs anchor ok fuel
            (rem - min chunk rem) (idx + 1)
          simp only [List.map_cons, List.sum_cons, ih]
          ring
        · simp
    · simp

/-- Every chunk recorded by the loop has amount at least `minO` (the loop
breaks rather than emit a sub-minimum chunk) and at most `chunk`
(it is `min chunk remaining`). -/
theorem chunkLoop_amount_bounds (minO chunk : ℚ) (offs : List ℚ) (anchor : ℚ)
    (ok : ℕ → Bool) :
    ∀ (fuel : ℕ) (rem : ℚ) (idx : ℕ),
      ∀ it ∈ (chunkLoop minO chunk offs anchor ok fuel rem idx).1,
        minO ≤ it.amount ∧ it.amount ≤ chunk
  | 0, rem, idx => by simp [chunkLoop]
  | fuel + 1, rem, idx => by
    simp only [chunkLoop]
    split
    · split
      · simp
      · split
        · intro it hit
          rcases List.mem_cons.1 hit with h | h
          · subst h
            exact ⟨not_lt.1 (by assumption), min_le_left _ _⟩
          · exact chunkLoop_amount_bounds minO chunk offs anchor ok fuel
              (rem - min chunk rem) (idx + 1) it h
        · simp
    · simp

/-- Every chunk recorded by the loop carries the clamped rate computed from
its own offset. -/
theorem chunkLoop_rates (minO chunk : ℚ) (offs : List ℚ) (anchor : ℚ)
    (ok : ℕ → Bool) :
    ∀ (fuel : ℕ) (rem : ℚ) (idx : ℕ),
      ∀ it ∈ (chunkLoop minO chunk offs anchor ok fuel rem idx).1,
        it.rate = target_rate anchor it.offset
  | 0, rem, idx => by simp [chunkLoop]
  | fuel + 1, rem, idx => by
    simp only [chunkLoop]
    split
    · split
      · simp
      · split
        · intro it hit
          rcases List.mem_cons.1 hit with h | h
          · subst h; rfl
          · exact chunkLoop_rates minO chunk offs anchor ok fuel
              (rem - min chunk rem) (idx + 1) it h
        · simp
    · simp

/-- The i-th chunk recorded by a loop started at counter `idx` uses the
ladder entry at index `(idx + i) % offs.length`. -/
theorem chunkLoop_offsets (minO chunk : ℚ) (offs : List ℚ) (anchor : ℚ)
    (ok : ℕ → Bool) :
    ∀ (fuel : ℕ) (rem : ℚ) (idx : ℕ) (i : ℕ) (it : Intent),
      (chunkLoop minO chunk offs anchor ok fuel rem idx).1[i]? = some it →
      it.offset = offs.getD ((idx + i) % offs.length) 0
  | 0, rem, idx => by simp [chunkLoop]
  | fuel + 1, rem, idx => by
    intro i it
    simp only [chunkLoop]
    split
    · split
      · simp
      · split
        · match i with
          | 0 =>
            intro h
            simp only [List.getElem?_cons_zero, Option.some.injEq] at h
            simp [← h]
          | i + 1 =>
            intro h
            simp only [List.getElem?_cons_succ] at h
            have ih := chunkLoop_offsets minO chunk offs anchor ok fuel
              (rem - min chunk rem) (idx + 1) i it h
            have harith : idx + 1 + i = idx + (i + 1) := by omega
            rwa [harith] at ih
        · simp
    · simp

/-- The loop never drives the remaining balance negative: each recorded chunk
is at most the balance remaining when it was taken. -/
theorem chunkLoop_nonneg (minO chunk : ℚ) (offs : List ℚ) (anchor : ℚ)
    (ok : ℕ → Bool) :
    ∀ (fuel : ℕ) (rem : ℚ) (idx : ℕ), 0 ≤ rem →
      0 ≤ (chunkLoop minO chunk offs anchor ok fuel rem idx).2
  | 0, rem, idx => by simp [chunkLoop]
  | fuel + 1, rem, idx => by
    intro hrem
    simp only [chunkLoop]
    split
    · split
      · simpa using hrem
      · split
        · exact chunkLoop_nonneg minO chunk offs anchor ok fuel
            (rem - min chunk rem) (idx + 1) (by simp)
        · simpa using hrem
    · simpa using hrem

/-- The loop never returns more than it was given. -/
theorem chunkLoop_le (minO chunk : ℚ) (offs : List ℚ) (anchor : ℚ)
    (ok : ℕ → Bool) (hm : 0 ≤ minO) :
    ∀ (fuel : ℕ) (rem : ℚ) (idx : ℕ),
      (chunkLoop minO chunk offs anchor ok fuel rem idx).2 ≤ rem
  | 0, rem, idx => by simp [chunkLoop]
  | fuel + 1, rem, idx => by
    simp only [chunkLoop]
    split
    · split
      · simp
      · split
        · have ih := chunkLoop_le minO chunk offs anchor ok hm fuel
            (rem - min chunk rem) (idx + 1)
          have hamt : minO ≤ min chunk rem := not_lt.1 (by assumption)
          linarith
        · simp
    · simp

/-- Termination and full deployment: when every submission succeeds, the
minimum is positive, the chunk size is at least the minimum, and the fuel
covers the balance (`rem ≤ fuel * minO`), the loop exits through its own
guard with a remainder strictly below the minimum. -/
theorem chunkLoop_drain (minO chunk : ℚ) (offs : List ℚ) (anchor : ℚ)
    (ok : ℕ → Bool) (hm : 0 < minO) (hmc : minO ≤ chunk)
    (hok : ∀ i, ok i = true) :
    ∀ (fuel : ℕ) (rem : ℚ) (idx : ℕ), rem ≤ (fuel : ℚ) * minO →
      (chunkLoop minO chunk offs anchor ok fuel rem idx).2 < minO
  | 0, rem, idx => by
    intro hfuel
    simp only [chunkLoop]
    simp only [Nat.cast_zero, zero_mul] at hfuel
    exact lt_of_le_of_lt hfuel hm
  | fuel + 1, rem, idx => by
    intro hfuel
    simp only [chunkLoop]
    split
    · have hrem : minO ≤ rem := by assumption
      have hamt : minO ≤ min chunk rem := le_min hmc hrem
      rw [if_neg (not_lt.2 hamt), hok idx, if_pos rfl]
      exact chunkLoop_drain minO chunk offs anchor ok hm hmc hok fuel
        (rem - min chunk rem) (idx + 1) (by
          push_cast at hfuel ⊢
          linarith)
    · exact lt_of_not_le (by assumption)
/-- The clamped per-chunk rate is always strictly positive. -/
theorem target_rate_pos (anchor off : ℚ) : 0 < target_rate anchor off :=
  lt_of_lt_of_le (by norm_num [RATE_FLOOR]) (le_max_right _ _)

/-- The clamped sweep rate is always strictly positive. -/
theorem sweep_rate_pos (anchor : ℚ) : 0 < sweep_rate anchor :=
  lt_of_lt_of_le (by norm_num [RATE_FLOOR]) (le_max_right _ _)

/-- Fuel sufficiency: ⌈b / m⌉ iterations, each removing at least `m`, cover a
balance of `b`. -/
theorem ceil_fuel_covers (b m : ℚ) (hm : 0 < m) (hb : 0 ≤ b) :
    b ≤ ((⌈b / m⌉.toNat : ℕ) : ℚ) * m := by
  have h1 : (0 : ℤ) ≤ ⌈b / m⌉ := Int.ceil_nonneg (div_nonneg hb hm.le)
  have h2 : b / m ≤ ((⌈b / m⌉ : ℤ) : ℚ) := Int.le_ceil _
  have h3 : ((⌈b / m⌉.toNat : ℕ) : ℚ) = ((⌈b / m⌉ : ℤ) : ℚ) := by
    exact_mod_cast congrArg (fun z : ℤ => (z : ℚ)) (Int.toNat_of_nonneg h1)
  calc b = b / m * m := (div_mul_cancel₀ b hm.ne').symm
    _ ≤ ((⌈b / m⌉ : ℤ) : ℚ) * m := mul_le_mul_of_nonneg_right h2 hm.le
    _ = ((⌈b / m⌉.toNat : ℕ) : ℚ) * m := by rw [h3]

/-- When the first `k` submissions succeed and the `k`-th (0-indexed) attempt
fails, and the balance covers `k` full chunks plus the minimum, the loop
records exactly `k` chunks (the failing chunk is not retried and nothing
after it is attempted) and returns the balance minus `k` full chunks. -/
theorem chunkLoop_failAt (minO chunk : ℚ) (offs : List ℚ) (anchor : ℚ)
    (ok : ℕ → Bool) (hm : 0 < minO) (hmc : minO ≤ chunk) :
    ∀ (k fuel : ℕ) (rem : ℚ) (idx : ℕ),
      (∀ j, j < k → ok (idx + j) = true) → ok (idx + k) = false →
      (k : ℚ) * chunk + minO ≤ rem → k < fuel →
      (chunkLoop minO chunk offs anchor ok fuel rem idx).1.length = k ∧
      (chunkLoop minO chunk offs anchor ok fuel rem idx).2 = rem - (k : ℚ) * chunk
  | 0, fuel, rem, idx => by
    intro hok hfail hrem hfuel
    match fuel, hfuel with
    | fuel + 1, _ =>
      simp only [Nat.cast_zero, zero_mul, zero_add] at hrem
      rw [Nat.add_zero] at hfail
      simp only [chunkLoop]
      rw [if_pos hrem, if_neg (not_lt.2 (le_min hmc hrem)), hfail]
      simp
  | k + 1, fuel, rem, idx => by
    intro hok hfail hrem hfuel
    match fuel, hfuel with
    | fuel + 1, hfuel =>
      have hch : (0 : ℚ) < chunk := lt_of_lt_of_le hm hmc
      have hkc : (0 : ℚ) ≤ (k : ℚ) * chunk := by positivity
      have hremge : minO ≤ rem := by push_cast at hrem; nlinarith
      have hchle : chunk ≤ rem := by push_cast at hrem; nlinarith
      have hok0 : ok idx = true := by
        have := hok 0 (Nat.succ_pos k)
        rwa [Nat.add_zero] at this
      have ih := chunkLoop_failAt minO chunk offs anchor ok hm hmc k fuel
        (rem - chunk) (idx + 1)
        (fun j hj => by
          have e : idx + 1 + j = idx + (j + 1) := by omega
          rw [e]
          exact hok (j + 1) (by omega))
        (by
          have e : idx + 1 + k = idx + (k + 1) := by omega
          rw [e]
          exact hfail)
        (by push_cast at hrem ⊢; linarith)
        (by omega)
      simp only [chunkLoop]
      rw [if_pos hremge, min_eq_left hchle, if_neg (not_lt.2 hmc), hok0, if_pos rfl]
      refine ⟨by simp [min_eq_left hchle, ih.1], ?_⟩
      simp only [min_eq_left hchle, ih.2]
      push_cast
      ring

/-- Unfolding lemma for the allocation part of `main`. -/
theorem mainRunWithChunk_eq (chunk : ℚ) (ok : ℕ → Bool) (okS : Bool) (bal anchor : ℚ) :
    mainRunWithChunk chunk ok okS bal anchor =
      if bal < MIN_OFFER then ⟨[], none, bal⟩
      else
        ⟨(chunkLoop MIN_OFFER chunk SPREAD_OFFSETS anchor ok
            (⌈bal / MIN_OFFER⌉.toNat) bal 0).1,
         (final_sweep okS anchor (chunkLoop MIN_OFFER chunk SPREAD_OFFSETS anchor ok
            (⌈bal / MIN_OFFER⌉.toNat) bal 0).2).1,
         (final_sweep okS anchor (chunkLoop MIN_OFFER chunk SPREAD_OFFSETS anchor ok
            (⌈bal / MIN_OFFER⌉.toNat) bal 0).2).2⟩ := by
  unfold mainRunWithChunk
  split <;> rfl

/-- Fuel strictness: a balance covering `k` full chunks plus the minimum
forces more than `k` available iterations. -/
theorem fuel_gt (bal : ℚ) (k : ℕ) (h : (k : ℚ) * CHUNK_SIZE + MIN_OFFER ≤ bal) :
    k < ⌈bal / MIN_OFFER⌉.toNat := by
  have hm : (0 : ℚ) < MIN_OFFER := by norm_num [MIN_OFFER]
  have h1 : ((k : ℚ) + 1) * MIN_OFFER ≤ bal := by
    have h2 : (k : ℚ) * MIN_OFFER ≤ (k : ℚ) * CHUNK_SIZE :=
      mul_le_mul_of_nonneg_left (by norm_num [MIN_OFFER, CHUNK_SIZE]) (by positivity)
    nlinarith
  have h2 : ((k : ℚ) + 1) ≤ bal / MIN_OFFER := (le_div_iff₀ hm).2 h1
  have h3 : ((k : ℤ) + 1 : ℤ) ≤ ⌈bal / MIN_OFFER⌉ := by
    have h4 := le_trans h2 (Int.le_ceil (bal / MIN_OFFER))
    exact_mod_cast h4
  omega

/-! ### Claim theorems -/

/-- C10: balance conservation of the primary phase.  For every non-negative
input balance and every sequence of submission outcomes, the remaining
balance returned by the chunking phase is the input balance minus the sum of
the amounts of the successfully submitted chunks (a failed submission never
decrements it), so `0 ≤ remaining ≤ input balance`. -/
theorem balance_conservation (ok : ℕ → Bool) (bal anchor : ℚ) (hbal : 0 ≤ bal) :
    (place_limit_offers_around_last_rate ok bal anchor).2 =
      bal - ((place_limit_offers_around_last_rate ok bal anchor).1.map Intent.amount).sum ∧
    0 ≤ (place_limit_offers_around_last_rate ok bal anchor).2 ∧
    (place_limit_offers_around_last_rate ok bal anchor).2 ≤ bal := by
  simp only [place_limit_offers_around_last_rate]
  exact ⟨chunkLoop_spend MIN_OFFER CHUNK_SIZE SPREAD_OFFSETS anchor ok _ bal 0,
    chunkLoop_nonneg MIN_OFFER CHUNK_SIZE SPREAD_OFFSETS anchor ok _ bal 0 hbal,
    chunkLoop_le MIN_OFFER CHUNK_SIZE SPREAD_OFFSETS anchor ok
      (by norm_num [MIN_OFFER]) _ bal 0⟩

/-- Witness for C10 at balance 1000 with every submission succeeding. -/
theorem balance_conservation_witness :
    (0 : ℚ) ≤ 1000 ∧
    ((place_limit_offers_around_last_rate (fun _ => true) 1000 (3/10000)).2 =
      1000 - ((place_limit_offers_around_last_rate (fun _ => true) 1000
        (3/10000)).1.map Intent.amount).sum ∧
     0 ≤ (place_limit_offers_around_last_rate (fun _ => true) 1000 (3/10000)).2 ∧
     (place_limit_offers_around_last_rate (fun _ => true) 1000 (3/10000)).2 ≤ 1000) :=
  ⟨by norm_num, balance_conservation (fun _ => true) 1000 (3/10000) (by norm_num)⟩

/-- C2: with every submission succeeding, the primary chunking phase deploys
`B - r` with `0 ≤ r < MIN_OFFER` for every balance `B ≥ MIN_OFFER` and every
positive anchor rate; the loop exits through its own sub-minimum guard
(exhaustive mode terminates). -/
theorem primary_phase_drains_balance (bal anchor : ℚ) (hbal : MIN_OFFER ≤ bal)
    (hanchor : 0 < anchor) :
    ((place_limit_offers_around_last_rate (fun _ => true) bal anchor).1.map
        Intent.amount).sum =
      bal - (place_limit_offers_around_last_rate (fun _ => true) bal anchor).2 ∧
    0 ≤ (place_limit_offers_around_last_rate (fun _ => true) bal anchor).2 ∧
    (place_limit_offers_around_last_rate (fun _ => true) bal anchor).2 < MIN_OFFER := by
  have h0 : (0 : ℚ) ≤ bal := le_trans (by norm_num [MIN_OFFER]) hbal
  have hm : (0 : ℚ) < MIN_OFFER := by norm_num [MIN_OFFER]
  simp only [place_limit_offers_around_last_rate]
  refine ⟨?_, chunkLoop_nonneg MIN_OFFER CHUNK_SIZE SPREAD_OFFSETS anchor
    (fun _ => true) _ bal 0 h0, ?_⟩
  · have h1 := chunkLoop_spend MIN_OFFER CHUNK_SIZE SPREAD_OFFSETS anchor
      (fun _ => true) (⌈bal / MIN_OFFER⌉.toNat) bal 0
    linarith
  · exact chunkLoop_drain MIN_OFFER CHUNK_SIZE SPREAD_OFFSETS anchor (fun _ => true)
      hm (by norm_num [MIN_OFFER, CHUNK_SIZE]) (fun _ => rfl) _ bal 0
      (ceil_fuel_covers bal MIN_OFFER hm h0)

/-- Witness for C2 at balance 1000 and anchor 0.0003. -/
theorem primary_phase_drains_balance_witness :
    MIN_OFFER ≤ (1000 : ℚ) ∧ (0 : ℚ) < 3/10000 ∧
    (((place_limit_offers_around_last_rate (fun _ => true) 1000 (3/10000)).1.map
        Intent.amount).sum =
      1000 - (place_limit_offers_around_last_rate (fun _ => true) 1000 (3/10000)).2 ∧
     0 ≤ (place_limit_offers_around_last_rate (fun _ => true) 1000 (3/10000)).2 ∧
     (place_limit_offers_around_last_rate (fun _ => true) 1000 (3/10000)).2 < MIN_OFFER) :=
  ⟨by norm_num [MIN_OFFER], by norm_num,
   primary_phase_drains_balance 1000 (3/10000) (by norm_num [MIN_OFFER]) (by norm_num)⟩

/-- C7: round-robin offset selection is deterministic.  For every balance,
every non-empty ladder, every anchor, every sequence of submission outcomes
and any fuel, the i-th recorded intent (0-indexed, counting successful
submissions) uses `offs[i % offs.length]` as its offset. -/
theorem round_robin_offsets (minO chunk : ℚ) (offs : List ℚ) (anchor bal : ℚ)
    (ok : ℕ → Bool) (fuel : ℕ) (hoffs : offs ≠ []) (i : ℕ) (it : Intent)
    (h : (chunkLoop minO chunk offs anchor ok fuel bal 0).1[i]? = some it) :
    it.offset = offs.getD (i % offs.length) 0 := by
  have h1 := chunkLoop_offsets minO chunk offs anchor ok fuel bal 0 i it h
  simpa using h1

/-- Witness for C7: the second intent of a three-chunk all-success run at
balance 2150 uses the second ladder entry. -/
theorem round_robin_offsets_witness :
    SPREAD_OFFSETS ≠ [] ∧
    (chunkLoop MIN_OFFER CHUNK_SIZE SPREAD_OFFSETS (3/10000) (fun _ => true)
      15 2150 0).1[1]? =
      some ⟨1000, target_rate (3/10000) (-3/10000), -3/10000⟩ ∧
    (Intent.mk 1000 (target_rate (3/10000) (-3/10000)) (-3/10000)).offset =
      SPREAD_OFFSETS.getD (1 % SPREAD_OFFSETS.length) 0 :=
  ⟨by decide, by decide,
   round_robin_offsets MIN_OFFER CHUNK_SIZE SPREAD_OFFSETS (3/10000) 2150
     (fun _ => true) 15 (by decide) 1
     ⟨1000, target_rate (3/10000) (-3/10000), -3/10000⟩ (by decide)⟩

/-- C9: every call to `submit_offer` attempts the preferred symbol first;
when that first attempt succeeds no second attempt is made and its result is
returned; on any failure of the first attempt exactly one retry with the
fallback symbol is made and its outcome (success or the propagated failure)
is returned; never more than two underlying attempts per call. -/
theorem submit_offer_fallback_retry {ε ρ : Type} (attempt : FundingSymbol → Except ε ρ) :
    ((∃ r, attempt SYMBOL_PREFERRED = Except.ok r) ∧
      submit_offer attempt = (attempt SYMBOL_PREFERRED, [SYMBOL_PREFERRED]) ∨
     (∃ e, attempt SYMBOL_PREFERRED = Except.error e) ∧
      submit_offer attempt =
        (attempt SYMBOL_FALLBACK, [SYMBOL_PREFERRED, SYMBOL_FALLBACK])) ∧
    (submit_offer attempt).2.length ≤ 2 := by
  cases h : attempt SYMBOL_PREFERRED with
  | ok r =>
    refine ⟨Or.inl ⟨⟨r, rfl⟩, ?_⟩, ?_⟩ <;> simp [submit_offer, h]
  | error e =>
    refine ⟨Or.inr ⟨⟨e, rfl⟩, ?_⟩, ?_⟩ <;> simp [submit_offer, h]

/-- Projection lemma: the primary intents of a run. -/
theorem mainRunWithChunk_intents (chunk : ℚ) (ok : ℕ → Bool) (okS : Bool)
    (bal anchor : ℚ) :
    (mainRunWithChunk chunk ok okS bal anchor).intents =
      if bal < MIN_OFFER then []
      else (chunkLoop MIN_OFFER chunk SPREAD_OFFSETS anchor ok
        (⌈bal / MIN_OFFER⌉.toNat) bal 0).1 := by
  unfold mainRunWithChunk
  by_cases h : bal < MIN_OFFER <;> simp [h]

/-- Projection lemma: the sweep offer of a run. -/
theorem mainRunWithChunk_sweep (chunk : ℚ) (ok : ℕ → Bool) (okS : Bool)
    (bal anchor : ℚ) :
    (mainRunWithChunk chunk ok okS bal anchor).sweep =
      if bal < MIN_OFFER then none
      else (final_sweep okS anchor (chunkLoop MIN_OFFER chunk SPREAD_OFFSETS anchor ok
        (⌈bal / MIN_OFFER⌉.toNat) bal 0).2).1 := by
  unfold mainRunWithChunk
  by_cases h : bal < MIN_OFFER <;> simp [h]

/-- C8: fail-fast.  If the first `k` submissions succeed, the next one fails,
and the balance covers `k` full chunks plus the minimum, then the primary
phase records exactly `k` chunks — the failed chunk is not retried and no
later chunk of that phase is attempted — and the sweep phase still executes
against the balance left unallocated at that point, submitting it in full. -/
theorem fail_fast_then_sweep (anchor bal : ℚ) (k : ℕ) (ok : ℕ → Bool) (okS : Bool)
    (hok : ∀ j, j < k → ok j = true) (hfail : ok k = false)
    (hbal : (k : ℚ) * CHUNK_SIZE + MIN_OFFER ≤ bal) :
    (mainRun ok okS bal anchor).intents.length = k ∧
    ((mainRun ok okS bal anchor).intents.map Intent.amount).sum =
      (k : ℚ) * CHUNK_SIZE ∧
    (mainRun ok okS bal anchor).sweep =
      some ⟨bal - (k : ℚ) * CHUNK_SIZE, sweep_rate anchor⟩ := by
  have hm : (0 : ℚ) < MIN_OFFER := by norm_num [MIN_OFFER]
  have hmc : MIN_OFFER ≤ CHUNK_SIZE := by norm_num [MIN_OFFER, CHUNK_SIZE]
  have hkc : (0 : ℚ) ≤ (k : ℚ) * CHUNK_SIZE :=
    mul_nonneg (by positivity) (by norm_num [CHUNK_SIZE])
  have hbal2 : MIN_OFFER ≤ bal := by linarith
  have hnlt : ¬ bal < MIN_OFFER := not_lt.2 hbal2
  have hfa := chunkLoop_failAt MIN_OFFER CHUNK_SIZE SPREAD_OFFSETS anchor ok hm hmc
    k (⌈bal / MIN_OFFER⌉.toNat) bal 0
    (fun j hj => by simpa using hok j hj)
    (by simpa using hfail)
    hbal
    (fuel_gt bal k hbal)
  have hspend := chunkLoop_spend MIN_OFFER CHUNK_SIZE SPREAD_OFFSETS anchor ok
    (⌈bal / MIN_OFFER⌉.toNat) bal 0
  unfold mainRun
  rw [show (mainRunWithChunk CHUNK_SIZE ok okS bal anchor).intents =
      (chunkLoop MIN_OFFER CHUNK_SIZE SPREAD_OFFSETS anchor ok
        (⌈bal / MIN_OFFER⌉.toNat) bal 0).1 from by
    rw [mainRunWithChunk_intents, if_neg hnlt]]
  rw [show (mainRunWithChunk CHUNK_SIZE ok okS bal anchor).sweep =
      (final_sweep okS anchor (chunkLoop MIN_OFFER CHUNK_SIZE SPREAD_OFFSETS anchor ok
        (⌈bal / MIN_OFFER⌉.toNat) bal 0).2).1 from by
    rw [mainRunWithChunk_sweep, if_neg hnlt]]
  refine ⟨hfa.1, by linarith [hfa.2, hspend], ?_⟩
  rw [hfa.2]
  have hge : MIN_OFFER ≤ bal - (k : ℚ) * CHUNK_SIZE := by linarith
  simp [final_sweep, hge]

/-- Witness for C8: one successful chunk, then a failure, at balance 1200. -/
theorem fail_fast_then_sweep_witness :
    (∀ j, j < 1 → (fun i => i == 0) j = true) ∧
    (fun i => i == 0) 1 = false ∧
    ((1 : ℕ) : ℚ) * CHUNK_SIZE + MIN_OFFER ≤ 1200 ∧
    ((mainRun (fun i => i == 0) true 1200 (3/10000)).intents.length = 1 ∧
     ((mainRun (fun i => i == 0) true 1200 (3/10000)).intents.map
        Intent.amount).sum = ((1 : ℕ) : ℚ) * CHUNK_SIZE ∧
     (mainRun (fun i => i == 0) true 1200 (3/10000)).sweep =
       some ⟨1200 - ((1 : ℕ) : ℚ) * CHUNK_SIZE, sweep_rate (3/10000)⟩) :=
  ⟨by decide, by decide, by push_cast; norm_num [CHUNK_SIZE, MIN_OFFER],
   fail_fast_then_sweep (3/10000) 1200 1 (fun i => i == 0) true
     (by decide) (by decide) (by push_cast; norm_num [CHUNK_SIZE, MIN_OFFER])⟩

/-- C5 (amended): every primary-phase intent has an amount between the
minimum order size and the chunk size; the sweep offer, when submitted, has
an amount of at least the minimum but is bounded only by the input balance —
after a failed primary submission it can exceed the chunk size. -/
theorem intent_amount_bounds (chunk : ℚ) (ok : ℕ → Bool) (okS : Bool)
    (bal anchor : ℚ) :
    (∀ it ∈ (mainRunWithChunk chunk ok okS bal anchor).intents,
        MIN_OFFER ≤ it.amount ∧ it.amount ≤ chunk) ∧
    (∀ s, (mainRunWithChunk chunk ok okS bal anchor).sweep = some s →
        MIN_OFFER ≤ s.amount ∧ s.amount ≤ bal) := by
  rw [mainRunWithChunk_intents, mainRunWithChunk_sweep]
  by_cases hlt : bal < MIN_OFFER
  · rw [if_pos hlt, if_pos hlt]
    exact ⟨fun it hit => absurd hit (by simp), fun s hs => absurd hs (by simp)⟩
  · rw [if_neg hlt, if_neg hlt]
    refine ⟨?_, ?_⟩
    · intro it hit
      exact chunkLoop_amount_bounds MIN_OFFER chunk SPREAD_OFFSETS anchor ok
        _ bal 0 it hit
    · intro s hs
      have hr_le := chunkLoop_le MIN_OFFER chunk SPREAD_OFFSETS anchor ok
        (by norm_num [MIN_OFFER]) (⌈bal / MIN_OFFER⌉.toNat) bal 0
      revert hs
      unfold final_sweep
      by_cases hmin : MIN_OFFER ≤ (chunkLoop MIN_OFFER chunk SPREAD_OFFSETS anchor ok
          (⌈bal / MIN_OFFER⌉.toNat) bal 0).2
      · rw [if_pos hmin]
        intro hs
        simp only [Option.some.injEq] at hs
        rw [← hs]
        exact ⟨hmin, hr_le⟩
      · rw [if_neg hmin]
        intro hs
        simp at hs

/-- Witness for C5 at a single-chunk all-success run. -/
theorem intent_amount_bounds_witness :
    Intent.mk 1000 (target_rate (3/10000) (-5/10000)) (-5/10000) ∈
      (mainRunWithChunk CHUNK_SIZE (fun _ => true) true 1000 (3/10000)).intents ∧
    (MIN_OFFER ≤ (1000 : ℚ) ∧ (1000 : ℚ) ≤ CHUNK_SIZE) :=
  ⟨by decide,
   (intent_amount_bounds CHUNK_SIZE (fun _ => true) true 1000 (3/10000)).1
     ⟨1000, target_rate (3/10000) (-5/10000), -5/10000⟩ (by decide)⟩

/-- C5 counterexample: with balance 2000 and a failing first submission the
sweep offer covers the whole 2000, exceeding the chunk size 1000. -/
theorem sweep_amount_can_exceed_chunk :
    (mainRun (fun _ => false) true 2000 (3/10000)).sweep =
      some ⟨2000, sweep_rate (3/10000)⟩ ∧
    ¬ (2000 : ℚ) ≤ CHUNK_SIZE := by
  exact ⟨by decide, by norm_num [CHUNK_SIZE]⟩

/-- C6: the rate floor.  For every anchor and offset the clamped chunk rate
is strictly positive, and whenever the computed `anchor * (1 + offset)` is at
or below the epsilon floor (in particular whenever it is non-positive) the
submitted rate is exactly the floor `0.000001`; the sweep rate is clamped the
same way, and every offer of every run carries such a clamped, strictly
positive rate. -/
theorem rate_floor_clamp (anchor off bal : ℚ) (ok : ℕ → Bool) (okS : Bool) :
    (anchor * (1 + off) ≤ RATE_FLOOR → target_rate anchor off = RATE_FLOOR) ∧
    0 < target_rate anchor off ∧
    (anchor ≤ RATE_FLOOR → sweep_rate anchor = RATE_FLOOR) ∧
    0 < sweep_rate anchor ∧
    (∀ it ∈ (mainRun ok okS bal anchor).intents,
        it.rate = target_rate anchor it.offset ∧ 0 < it.rate) ∧
    (∀ s, (mainRun ok okS bal anchor).sweep = some s →
        s.rate = sweep_rate anchor ∧ 0 < s.rate) := by
  refine ⟨fun h => max_eq_right h, target_rate_pos anchor off,
    fun h => max_eq_right h, sweep_rate_pos anchor, ?_, ?_⟩
  · intro it hit
    unfold mainRun at hit
    rw [mainRunWithChunk_intents] at hit
    by_cases hlt : bal < MIN_OFFER
    · rw [if_pos hlt] at hit
      simp at hit
    · rw [if_neg hlt] at hit
      have h1 := chunkLoop_rates MIN_OFFER CHUNK_SIZE SPREAD_OFFSETS anchor ok
        _ bal 0 it hit
      exact ⟨h1, h1 ▸ target_rate_pos anchor it.offset⟩
  · intro s hs
    unfold mainRun at hs
    rw [mainRunWithChunk_sweep] at hs
    by_cases hlt : bal < MIN_OFFER
    · rw [if_pos hlt] at hs
      simp at hs
    · rw [if_neg hlt] at hs
      revert hs
      unfold final_sweep
      by_cases hmin : MIN_OFFER ≤ (chunkLoop MIN_OFFER CHUNK_SIZE SPREAD_OFFSETS
          anchor ok (⌈bal / MIN_OFFER⌉.toNat) bal 0).2
      · rw [if_pos hmin]
        intro hs
        simp only [Option.some.injEq] at hs
        rw [← hs]
        exact ⟨rfl, sweep_rate_pos anchor⟩
      · rw [if_neg hmin]
        intro hs
        simp at hs

/-- Witness for C6 at anchor -1 and offset 0, whose computed rate is
negative. -/
theorem rate_floor_clamp_witness :
    ((-1 : ℚ) * (1 + 0) ≤ RATE_FLOOR ∧ target_rate (-1) 0 = RATE_FLOOR) ∧
    ((-1 : ℚ) ≤ RATE_FLOOR ∧ sweep_rate (-1) = RATE_FLOOR) :=
  ⟨⟨by norm_num [RATE_FLOOR],
    (rate_floor_clamp (-1) 0 0 (fun _ => true) true).1 (by norm_num [RATE_FLOOR])⟩,
   ⟨by norm_num [RATE_FLOOR],
    (rate_floor_clamp (-1) 0 0 (fun _ => true) true).2.2.1 (by norm_num [RATE_FLOOR])⟩⟩

/-- C1 (amended): the low-yield guard is informational only.  For every
configured guard threshold and every anchor — in particular when the guard is
positive and the anchor's compounded APY (as a percentage) is below it — the
ladder read by the chunking loop is the full seven-entry `SPREAD_OFFSETS`,
not a collapsed single-zero-offset set; capital is still deployed (with
every submission succeeding, the remainder drops below the minimum). -/
theorem guard_warn_only_full_ladder (guard anchor bal : ℚ) (hguard : 0 < guard)
    (hapy : daily_to_apy anchor * 100 < guard) (hbal : MIN_OFFER ≤ bal) :
    ladder_used guard anchor = SPREAD_OFFSETS ∧
    (ladder_used guard anchor).length = 7 ∧
    (place_limit_offers_around_last_rate (fun _ => true) bal anchor).2 < MIN_OFFER := by
  have h0 : (0 : ℚ) ≤ bal := le_trans (by norm_num [MIN_OFFER]) hbal
  have hm : (0 : ℚ) < MIN_OFFER := by norm_num [MIN_OFFER]
  refine ⟨rfl, rfl, ?_⟩
  simp only [place_limit_offers_around_last_rate]
  exact chunkLoop_drain MIN_OFFER CHUNK_SIZE SPREAD_OFFSETS anchor (fun _ => true)
    hm (by norm_num [MIN_OFFER, CHUNK_SIZE]) (fun _ => rfl) _ bal 0
    (ceil_fuel_covers bal MIN_OFFER hm h0)

/-- Witness for C1 (amended) at guard 5 and anchor 0.00001 per day. -/
theorem guard_warn_only_full_ladder_witness :
    ((0 : ℚ) < 5 ∧ daily_to_apy (1/100000) * 100 < 5 ∧ MIN_OFFER ≤ (1000 : ℚ)) ∧
    (ladder_used 5 (1/100000) = SPREAD_OFFSETS ∧
     (ladder_used 5 (1/100000)).length = 7 ∧
     (place_limit_offers_around_last_rate (fun _ => true) 1000 (1/100000)).2 <
       MIN_OFFER) :=
  ⟨⟨by norm_num, by decide, by norm_num [MIN_OFFER]⟩,
   guard_warn_only_full_ladder 5 (1/100000) 1000 (by norm_num) (by decide)
     (by norm_num [MIN_OFFER])⟩

/-- C1 counterexample: guard 5% is configured and the anchor 0.00001/day has
compounded APY below 5%, yet the ladder in effect has 7 entries (not 1), and
an all-success run at balance 2150 visibly uses three distinct non-zero-only
ladder offsets. -/
theorem guard_does_not_collapse_ladder :
    (0 : ℚ) < 5 ∧ daily_to_apy (1/100000) * 100 < 5 ∧
    (ladder_used 5 (1/100000)).length ≠ 1 ∧
    (mainRun (fun _ => true) true 2150 (1/100000)).intents.map Intent.offset =
      [-5/10000, -3/10000, -1/10000] := by
  exact ⟨by norm_num, by decide, by decide, by decide⟩

/-- Any best bid extracted from a book whose rates are all non-negative is
non-negative (it is the maximum of some bid-side rates). -/
theorem best_bid_nonneg (rows : List BookRow) (hrows : ∀ row ∈ rows, 0 ≤ row.rate)
    (b : ℚ) (hb : (funding_best_bid_ask (some rows)).1 = some b) : 0 ≤ b := by
  simp only [funding_best_bid_ask] at hb
  have hmem := List.max?_mem (fun x y => max_choice x y) hb
  simp only [List.mem_map, List.mem_filter] at hmem
  obtain ⟨row, ⟨hrow, _⟩, hrate⟩ := hmem
  exact hrate ▸ hrows row hrow

/-- Any best ask extracted from a book whose rates are all non-negative is
non-negative (it is the minimum of some ask-side rates). -/
theorem best_ask_nonneg (rows : List BookRow) (hrows : ∀ row ∈ rows, 0 ≤ row.rate)
    (a : ℚ) (ha : (funding_best_bid_ask (some rows)).2 = some a) : 0 ≤ a := by
  simp only [funding_best_bid_ask] at ha
  have hmem := List.min?_mem (fun x y => min_choice x y) ha
  simp only [List.mem_map, List.mem_filter] at hmem
  obtain ⟨row, ⟨hrow, _⟩, hrate⟩ := hmem
  exact hrate ▸ hrows row hrow

/-- The book fallback is strictly positive whenever every book rate is
non-negative: the midpoint branch averages two non-zero non-negative rates,
and the other branch is at least the hardcoded floor `0.0002`. -/
theorem frrFallback_pos (book : Option (List BookRow))
    (hbook : ∀ row ∈ book.getD [], 0 ≤ row.rate) : 0 < frrFallback book := by
  simp only [frrFallback]
  by_cases ht : (pyTruthy (funding_best_bid_ask book).1 &&
      pyTruthy (funding_best_bid_ask book).2) = true
  · rw [if_pos ht]
    rw [Bool.and_eq_true] at ht
    obtain ⟨h1, h2⟩ := ht
    cases hbb : (funding_best_bid_ask book).1 with
    | none => rw [hbb] at h1; simp [pyTruthy] at h1
    | some b =>
      cases hba : (funding_best_bid_ask book).2 with
      | none => rw [hba] at h2; simp [pyTruthy] at h2
      | some a =>
        rw [hbb] at h1
        rw [hba] at h2
        simp only [pyTruthy, decide_eq_true_eq] at h1 h2
        cases book with
        | none => simp [funding_best_bid_ask] at hbb
        | some rows =>
          have hrows : ∀ row ∈ rows, 0 ≤ row.rate := by simpa using hbook
          have hbpos : 0 < b :=
            lt_of_le_of_ne (best_bid_nonneg rows hrows b hbb) (Ne.symm h1)
          have hapos : 0 < a :=
            lt_of_le_of_ne (best_ask_nonneg rows hrows a hba) (Ne.symm h2)
          simp only [Option.getD_some]
          exact div_pos (by linarith) (by norm_num)
  · rw [if_neg ht]
    exact lt_of_lt_of_le (by norm_num [FRR_FLOOR]) (le_max_right _ _)

/-- A rate returned by `fetch_last_matched_daily_rate` is strictly positive
by construction. -/
theorem last_matched_pos (trades : Option (List TradeRow)) (r : ℚ)
    (h : fetch_last_matched_daily_rate trades = some r) : 0 < r := by
  match trades with
  | none => simp [fetch_last_matched_daily_rate] at h
  | some [] => simp [fetch_last_matched_daily_rate] at h
  | some (row :: rest) =>
    by_cases hr : 0 < row.rate
    · have h2 : some row.rate = some r := by
        simpa [fetch_last_matched_daily_rate, hr] using h
      injection h2 with h3
      rwa [← h3]
    · simp [fetch_last_matched_daily_rate, hr] at h

/-- C3 (amended): anchor resolution is total — every market-data outcome
yields a rate without aborting — and the rate is strictly positive provided
every order-book rate is non-negative (with a negative-rate book the bid/ask
midpoint branch of `fetch_frr_daily_rate` can produce a non-positive value). -/
theorem frr_positive_of_nonneg_book (trades : Option (List TradeRow))
    (stats : StatsResp) (book : Option (List BookRow))
    (hbook : ∀ row ∈ book.getD [], 0 ≤ row.rate) :
    0 < fetch_frr_daily_rate stats book ∧ 0 < resolve_anchor trades stats book := by
  have hfrr : 0 < fetch_frr_daily_rate stats book := by
    unfold fetch_frr_daily_rate
    cases hs : statsCandidate stats with
    | none => exact frrFallback_pos book hbook
    | some v =>
      show 0 < if 0 < v then v else frrFallback book
      by_cases hv : 0 < v
      · rwa [if_pos hv]
      · rw [if_neg hv]
        exact frrFallback_pos book hbook
  refine ⟨hfrr, ?_⟩
  unfold resolve_anchor
  cases hl : fetch_last_matched_daily_rate trades with
  | none => exact hfrr
  | some r => exact last_matched_pos trades r hl

/-- Witness for C3 (amended) at a failed stats call and a two-sided book of
positive rates. -/
theorem frr_positive_of_nonneg_book_witness :
    (∀ row ∈ (some [(⟨3/10000, 5⟩ : BookRow), ⟨4/10000, -5⟩] :
        Option (List BookRow)).getD [], 0 ≤ row.rate) ∧
    (0 < fetch_frr_daily_rate StatsResp.failed
        (some [⟨3/10000, 5⟩, ⟨4/10000, -5⟩]) ∧
     0 < resolve_anchor none StatsResp.failed
        (some [⟨3/10000, 5⟩, ⟨4/10000, -5⟩])) :=
  ⟨by decide,
   frr_positive_of_nonneg_book none StatsResp.failed
     (some [⟨3/10000, 5⟩, ⟨4/10000, -5⟩]) (by decide)⟩

/-- C3 counterexample: with the reference-rate call failing and a book whose
bid and ask rates are both -0.001, `fetch_frr_daily_rate` returns the
midpoint -0.001, which is not strictly positive. -/
theorem frr_can_return_nonpositive :
    fetch_frr_daily_rate StatsResp.failed
        (some [⟨-1/1000, 5⟩, ⟨-1/1000, -5⟩]) = -1/1000 ∧
    ¬ 0 < fetch_frr_daily_rate StatsResp.failed
        (some [⟨-1/1000, 5⟩, ⟨-1/1000, -5⟩]) := by
  exact ⟨by decide, by decide⟩

/-- C4 (amended): with balance 620, chunk size 500 and minimum 150, the run
emits exactly one primary intent of amount 500 (at the first ladder offset),
leaving remainder 120; 120 is below the minimum, so the sweep phase emits
nothing and 120 is left idle. -/
theorem balance620_chunk500_run :
    mainRunWithChunk 500 (fun _ => true) true 620 (3/10000) =
      ⟨[⟨500, target_rate (3/10000) (-5/10000), -5/10000⟩], none, 120⟩ := by
  decide

/-- C4 counterexample: in that same run the sweep phase emits no intent at
all for the sub-minimum remainder 120 (the claim says it emits one of
amount 120). -/
theorem sweep_skips_subminimum_remainder :
    (mainRunWithChunk 500 (fun _ => true) true 620 (3/10000)).intents.map
        Intent.amount = [500] ∧
    (mainRunWithChunk 500 (fun _ => true) true 620 (3/10000)).sweep = none := by
  exact ⟨by decide, by decide⟩

end Lend
